import Mathlib

/-!
# Verification of the configurable cache model (`dcache.H`)

Shallow embedding of the cache simulator in `src/dcache.H`: bit utilities,
cache tags, the direct-mapped and LRU cache-set variants, the cache-core
geometry derivation, the access paths, and the statistics counters.

Modelling conventions:
* `ADDRINT` (64-bit) and `UINT32` values are modelled as `Nat`; wraparound is
  made explicit (`% 2 ^ 32`) exactly where the C arithmetic can wrap
  (the `_setIndexMask` computation and `NumSets`).
* `CACHE_STATS` (`UINT64`) counters are modelled as `Nat`; the spec states the
  counters are assumed never to overflow.
* The C `int LRU` recency field is modelled as `Int`.
* The `LRU` set stores only its active slots `_tags[0 .. _tagsLastIndex]`
  as a list (index `i` of the list is array index `i`); the source only ever
  reads or writes slots in that range after construction, and the `CACHE`
  constructor makes every active slot a default tag (`CACHE_TAG(0)` with
  `LRU = 0`), which `freshLRU` reproduces.
* The template parameters `MAX_SETS` / `MAX_ASSOCIATIVITY` only bound the
  backing arrays via assertions (`NumSets() <= MAX_SETS`,
  `associativity <= MAX_ASSOCIATIVITY`); lists being unbounded, the model
  needs no such bound.
* The dead second-level (`l2_`) fields are carried along faithfully: they are
  initialised but never updated by the live code paths.
-/

namespace DCache

/-- `IsPower2` from the source: `(n & (n - 1)) == 0`.  For `n = 0` the C
`UINT32` computation is `0 & 0xffffffff = 0`, and the `Nat` computation is
`0 &&& 0 = 0`: both accept `0`. -/
def IsPower2 (n : Nat) : Bool :=
  (n &&& (n - 1)) == 0

/-- `FloorLog2` from the source: position of the most significant set bit of a
`UINT32`, computed by the binary-chunk test; returns `-1` for `n = 0`. -/
def FloorLog2 (n : Nat) : Int :=
  if n = 0 then -1
  else
    let p : Nat := 0
    let pn := if (n &&& 0xffff0000) ≠ 0 then (p + 16, n >>> 16) else (p, n)
    let p := pn.1
    let n := pn.2
    let pn := if (n &&& 0x0000ff00) ≠ 0 then (p + 8, n >>> 8) else (p, n)
    let p := pn.1
    let n := pn.2
    let pn := if (n &&& 0x000000f0) ≠ 0 then (p + 4, n >>> 4) else (p, n)
    let p := pn.1
    let n := pn.2
    let pn := if (n &&& 0x0000000c) ≠ 0 then (p + 2, n >>> 2) else (p, n)
    let p := pn.1
    let n := pn.2
    let p := if (n &&& 0x00000002) ≠ 0 then p + 1 else p
    (p : Int)

/-- `CACHE_TAG`: the identifying value `_tag`, the `dirty` flag and the
recency counter `LRU`.  `operator==` compares only `_tag`. -/
structure CACHE_TAG where
  _tag : Nat
  dirty : Bool
  LRU : Int
deriving DecidableEq, Repr

/-- The `CACHE_TAG(ADDRINT tag = 0)` constructor: `dirty = false`, `LRU = 0`. -/
def CACHE_TAG.init (t : Nat) : CACHE_TAG :=
  ⟨t, false, 0⟩

/-- `CACHE_SET::DIRECT_MAPPED`: a single tag slot. -/
structure DIRECT_MAPPED where
  _tag : CACHE_TAG
deriving DecidableEq, Repr

/-- `DIRECT_MAPPED::Find`: `return (_tag == tag)`, no state change. -/
def DIRECT_MAPPED.Find (s : DIRECT_MAPPED) (t : Nat) : Bool :=
  s._tag._tag == t

/-- `DIRECT_MAPPED::Replace`: unconditionally overwrite the stored tag. -/
def DIRECT_MAPPED.Replace (_s : DIRECT_MAPPED) (t : Nat) : DIRECT_MAPPED :=
  ⟨CACHE_TAG.init t⟩

/-- `CACHE_SET::LRU`: the active slots `_tags[0 .. _tagsLastIndex]`. -/
structure LRU where
  tags : List CACHE_TAG
deriving DecidableEq, Repr

/-- The loop body of `LRU::Find`: visits every active slot (the C loop runs
from `_tagsLastIndex` down to `0` with no break; per-slot updates are
independent, so the list recursion produces the same final state), sets
`result` on a match, resets the matching slot's `LRU` to 0 and increments
every other slot's `LRU`. -/
def lruFindGo (t : Nat) : List CACHE_TAG → Bool × List CACHE_TAG
  | [] => (false, [])
  | c :: cs =>
    let r := lruFindGo t cs
    if c._tag == t then (true, { c with LRU := 0 } :: r.2)
    else (r.1, { c with LRU := c.LRU + 1 } :: r.2)

/-- `LRU::Find`. -/
def LRU.Find (s : LRU) (t : Nat) : Bool × LRU :=
  let r := lruFindGo t s.tags
  (r.1, ⟨r.2⟩)

/-- The scan of `LRU::Replace`: the C loop
`for (index = _tagsLastIndex; index >= 0; index--)` starting from
`lru_index = _tagsLastIndex`, `lru_val = 0`, overwriting the candidate only on
a strictly greater recency.  `lruScanAux tags k acc` runs the loop over
indices `k-1, k-2, ..., 0`. -/
def lruScanAux (tags : List CACHE_TAG) : Nat → Nat × Int → Nat × Int
  | 0, acc => acc
  | i + 1, acc =>
    let c := tags.getD i (CACHE_TAG.init 0)
    lruScanAux tags i (if acc.2 < c.LRU then (i, c.LRU) else acc)

/-- The victim index chosen by `LRU::Replace`. -/
def lruScanIdx (tags : List CACHE_TAG) : Nat :=
  (lruScanAux tags tags.length (tags.length - 1, 0)).1

/-- `LRU::Replace`: install the tag at the victim index with `LRU = 0`
(the installed `CACHE_TAG` comes from the `ADDRINT` conversion at the only
call site, so `dirty = false`; the source then sets `LRU = 0` explicitly). -/
def LRU.Replace (s : LRU) (t : Nat) : LRU :=
  ⟨s.tags.set (lruScanIdx s.tags) (CACHE_TAG.init t)⟩

/-- The state of one cache set right after `CACHE`'s constructor: the `LRU`
default constructor fills every slot with `CACHE_TAG(0)` and
`SetAssociativity` then marks `associativity` slots active. -/
def freshLRU (associativity : Nat) : LRU :=
  ⟨List.replicate associativity (CACHE_TAG.init 0)⟩

/-- `CACHE_BASE::ACCESS_TYPE` (the live values). -/
inductive ACCESS_TYPE where
  | ACCESS_TYPE_LOAD
  | ACCESS_TYPE_STORE
deriving DecidableEq, Repr

/-- `CACHE_ALLOC::STORE_ALLOCATION`. -/
inductive STORE_ALLOCATION where
  | STORE_ALLOCATE
  | STORE_NO_ALLOCATE
deriving DecidableEq, Repr

/-- One `CACHE_STATS _access[ACCESS_TYPE_NUM][HIT_MISS_NUM]` array. -/
structure AccessCounters where
  loadMiss : Nat
  loadHit : Nat
  storeMiss : Nat
  storeHit : Nat
deriving DecidableEq, Repr

/-- Read `_access[accessType][hit]`. -/
def AccessCounters.get (a : AccessCounters) : ACCESS_TYPE → Bool → Nat
  | ACCESS_TYPE.ACCESS_TYPE_LOAD, false => a.loadMiss
  | ACCESS_TYPE.ACCESS_TYPE_LOAD, true => a.loadHit
  | ACCESS_TYPE.ACCESS_TYPE_STORE, false => a.storeMiss
  | ACCESS_TYPE.ACCESS_TYPE_STORE, true => a.storeHit

/-- `_access[accessType][hit]++`. -/
def AccessCounters.inc (a : AccessCounters) : ACCESS_TYPE → Bool → AccessCounters
  | ACCESS_TYPE.ACCESS_TYPE_LOAD, false => { a with loadMiss := a.loadMiss + 1 }
  | ACCESS_TYPE.ACCESS_TYPE_LOAD, true => { a with loadHit := a.loadHit + 1 }
  | ACCESS_TYPE.ACCESS_TYPE_STORE, false => { a with storeMiss := a.storeMiss + 1 }
  | ACCESS_TYPE.ACCESS_TYPE_STORE, true => { a with storeHit := a.storeHit + 1 }

/-- The constructor's zero initialisation of the counters. -/
def AccessCounters.initZero : AccessCounters :=
  ⟨0, 0, 0, 0⟩

/-- The value of the `UINT32` expression `n - 1` for `n < 2 ^ 32`
(wraps to `0xffffffff` when `n = 0`). -/
def u32sub1 (n : Nat) : Nat :=
  (n + (2 ^ 32 - 1)) % 2 ^ 32

/-- The geometry fields of `CACHE_BASE` (input and computed parameters). -/
structure CACHE_GEOM where
  cacheSize : Nat
  lineSize : Nat
  associativity : Nat
  l2_cacheSize : Nat
  l2_lineSize : Nat
  l2_associativity : Nat
  lineShift : Nat
  setIndexMask : Nat
  l2_lineShift : Nat
  l2_setIndexMask : Nat
deriving DecidableEq, Repr

/-- The `CACHE_BASE` constructor's member initialisers:
`_lineShift = FloorLog2(lineSize)` (stored in a `UINT32`; nonnegative for the
legal `lineSize ≥ 1`), `_setIndexMask = cacheSize / (associativity*lineSize) - 1`
in `UINT32` arithmetic, and the same for the dead `l2_` fields. -/
def mkGeom (cacheSize lineSize associativity
    l2_cacheSize l2_lineSize l2_associativity : Nat) : CACHE_GEOM :=
  { cacheSize := cacheSize
    lineSize := lineSize
    associativity := associativity
    l2_cacheSize := l2_cacheSize
    l2_lineSize := l2_lineSize
    l2_associativity := l2_associativity
    lineShift := (FloorLog2 lineSize).toNat
    setIndexMask := u32sub1 (cacheSize / (associativity * lineSize))
    l2_lineShift := (FloorLog2 l2_lineSize).toNat
    l2_setIndexMask := u32sub1 (l2_cacheSize / (l2_associativity * l2_lineSize)) }

/-- `CACHE_BASE::NumSets`: `_setIndexMask + 1` in `UINT32` arithmetic. -/
def NumSets (g : CACHE_GEOM) : Nat :=
  (g.setIndexMask + 1) % 2 ^ 32

/-- `CACHE_BASE::l2_NumSets`. -/
def l2_NumSets (g : CACHE_GEOM) : Nat :=
  (g.l2_setIndexMask + 1) % 2 ^ 32

/-- The two `ASSERTX` checks of the `CACHE_BASE` constructor:
`IsPower2(_lineSize)` and `IsPower2(_setIndexMask + 1)` (`UINT32` sum). -/
def ctorOk (g : CACHE_GEOM) : Bool :=
  IsPower2 g.lineSize && IsPower2 ((g.setIndexMask + 1) % 2 ^ 32)

/-- `CACHE_BASE::SplitAddress(addr, tag, setIndex, level)`:
`tag = addr >> lineShift`, `setIndex = tag & setIndexMask`, selecting the
level-1 or level-2 constants. -/
def SplitAddress (g : CACHE_GEOM) (addr : Nat) (level : Nat) : Nat × Nat :=
  let shift := if level == 1 then g.lineShift else g.l2_lineShift
  let mask := if level == 1 then g.setIndexMask else g.l2_setIndexMask
  let tag := addr >>> shift
  (tag, tag &&& mask)

/-- The full state of a `CACHE<CACHE_SET::LRU<..>, MAX_SETS, STORE_ALLOCATION>`
instance: geometry, allocation policy, the set arrays and the counters. -/
structure CACHE_STATE where
  geom : CACHE_GEOM
  storeAllocation : STORE_ALLOCATION
  sets : List LRU
  l2_sets : List LRU
  access : AccessCounters
  l2_access : AccessCounters
deriving DecidableEq, Repr

/-- The `CACHE` constructor: derive the geometry, zero the counters, and set
the associativity of the first `NumSets()` (resp. `l2_NumSets()`) sets. -/
def mkCache (cacheSize lineSize associativity
    l2_cacheSize l2_lineSize l2_associativity : Nat)
    (storeAllocation : STORE_ALLOCATION) : CACHE_STATE :=
  { geom := mkGeom cacheSize lineSize associativity
      l2_cacheSize l2_lineSize l2_associativity
    storeAllocation := storeAllocation
    sets := List.replicate (NumSets (mkGeom cacheSize lineSize associativity
      l2_cacheSize l2_lineSize l2_associativity)) (freshLRU associativity)
    l2_sets := List.replicate (l2_NumSets (mkGeom cacheSize lineSize associativity
      l2_cacheSize l2_lineSize l2_associativity)) (freshLRU l2_associativity)
    access := AccessCounters.initZero
    l2_access := AccessCounters.initZero }

/-- `CACHE::AccessSingleLine(addr, accessType)` (the live code): split the
address at level 1, `Find` in the selected set, `Replace` on a miss when the
access is a load or the policy is `STORE_ALLOCATE`, then
`_access[accessType][hit]++` and return `hit`. -/
def AccessSingleLine (st : CACHE_STATE) (addr : Nat) (accessType : ACCESS_TYPE) :
    Bool × CACHE_STATE :=
  let sp := SplitAddress st.geom addr 1
  let tag := sp.1
  let setIndex := sp.2
  let s0 := st.sets.getD setIndex ⟨[]⟩
  let fr := LRU.Find s0 tag
  let hit := fr.1
  let s1 := fr.2
  let s2 := if !hit && (accessType == ACCESS_TYPE.ACCESS_TYPE_LOAD
      || st.storeAllocation == STORE_ALLOCATION.STORE_ALLOCATE)
    then LRU.Replace s1 tag else s1
  (hit, { st with
    sets := st.sets.set setIndex s2
    access := st.access.inc accessType hit })

/-- The `do { ... } while (addr < highAddr)` loop of `CACHE::Access` as it
stands in the source: the `AccessSingleLine` call is commented out
(`bool localHit = true;`), so each iteration only advances
`addr = (addr & ~(lineSize - 1)) + lineSize` (the 64-bit `~(lineSize - 1)`
is `2 ^ 64 - lineSize`) and performs `allHit &= true`.  The structural `fuel`
argument bounds the iteration count; `Access` passes `size + 1`, which covers
every terminating run of the C loop (each iteration of the C loop with a
power-of-two `lineSize ≥ 1` strictly increases `addr`, so at most
`size` further iterations occur after the first). -/
def accessLoop (lineSize highAddr : Nat) : Nat → Nat → Bool → Bool
  | 0, _, allHit => allHit
  | fuel + 1, addr, allHit =>
    let localHit := true
    let allHit2 := allHit && localHit
    let addr2 := (addr &&& (2 ^ 64 - lineSize)) + lineSize
    if addr2 < highAddr then accessLoop lineSize highAddr fuel addr2 allHit2
    else allHit2

/-- `CACHE::Access(addr, size, accessType)` as it stands in the source: the
per-line call and the counter update are commented out, so the state is
returned untouched and the loop only computes `allHit`. -/
def Access (st : CACHE_STATE) (addr size : Nat) (_accessType : ACCESS_TYPE) :
    Bool × CACHE_STATE :=
  (accessLoop st.geom.lineSize (addr + size) (size + 1) addr true, st)

/-- Run a sequence of `AccessSingleLine` calls. -/
def runAccesses : CACHE_STATE → List (Nat × ACCESS_TYPE) → CACHE_STATE
  | st, [] => st
  | st, p :: rest => runAccesses (AccessSingleLine st p.1 p.2).2 rest

/-- `CACHE_BASE::SumAccess(hit, cache_level)` as it stands in the source:
the summation loop is commented out, so the function returns `sum = 0`. -/
def SumAccess (_st : CACHE_STATE) (_hit : Bool) (_cache_level : Nat) : Nat :=
  0

/-- `CACHE_BASE::Hits(accessType)`. -/
def Hits (st : CACHE_STATE) (accessType : ACCESS_TYPE) : Nat :=
  st.access.get accessType true

/-- `CACHE_BASE::Misses(accessType)`. -/
def Misses (st : CACHE_STATE) (accessType : ACCESS_TYPE) : Nat :=
  st.access.get accessType false

/-- `CACHE_BASE::Accesses(accessType)`. -/
def Accesses (st : CACHE_STATE) (accessType : ACCESS_TYPE) : Nat :=
  Hits st accessType + Misses st accessType

/-- `CACHE_BASE::Hits()`: `SumAccess(true, 1)`. -/
def HitsAll (st : CACHE_STATE) : Nat :=
  SumAccess st true 1

/-- `CACHE_BASE::Misses()`: `SumAccess(false, 1)`. -/
def MissesAll (st : CACHE_STATE) : Nat :=
  SumAccess st false 1

/-- `CACHE_BASE::Accesses()`: `Hits() + Misses()`. -/
def AccessesAll (st : CACHE_STATE) : Nat :=
  HitsAll st + MissesAll st

/-! ## Helper lemmas -/

/-- The `Access` loop can only ever return `true`: `allHit` starts `true`
and is only ever conjoined with the hard-coded `localHit = true`. -/
theorem accessLoop_true (lineSize highAddr : Nat) :
    ∀ (fuel addr : Nat), accessLoop lineSize highAddr fuel addr true = true := by
  intro fuel
  induction fuel with
  | zero => intro addr; rfl
  | succ f ih =>
    intro addr
    simp only [accessLoop, Bool.and_true]
    split
    · exact ih _
    · rfl

/-- The result flag of the `LRU::Find` scan is set iff some active slot's
tag value matches the probe. -/
theorem lruFindGo_fst (t : Nat) :
    ∀ (l : List CACHE_TAG), (lruFindGo t l).1 = true ↔ ∃ c ∈ l, c._tag = t := by
  intro l
  induction l with
  | nil => simp [lruFindGo]
  | cons c cs ih =>
    by_cases h : c._tag = t
    · simp [lruFindGo, h]
    · have hb : (c._tag == t) = false := by simp [h]
      simp [lruFindGo, hb, ih, h]

/-- Pointwise description of the slot array after the `LRU::Find` scan. -/
theorem lruFindGo_get? (t : Nat) :
    ∀ (l : List CACHE_TAG) (j : Nat),
      (lruFindGo t l).2.get? j
        = (l.get? j).map (fun c =>
            if c._tag == t then { c with LRU := 0 } else { c with LRU := c.LRU + 1 }) := by
  intro l
  induction l with
  | nil => intro j; cases j <;> rfl
  | cons c cs ih =>
    intro j
    cases j with
    | zero =>
      by_cases h : (c._tag == t) = true
      · have h' : c._tag = t := by simpa using h
        simp [lruFindGo, h, h']
      · have h' : ¬c._tag = t := by simpa using h
        simp [lruFindGo, h, h']
    | succ j =>
      by_cases h : (c._tag == t) = true
      · simpa [lruFindGo, h] using ih j
      · simpa [lruFindGo, h] using ih j

/-- The `LRU::Find` scan does not change the number of slots. -/
theorem lruFindGo_length (t : Nat) :
    ∀ (l : List CACHE_TAG), (lruFindGo t l).2.length = l.length := by
  intro l
  induction l with
  | nil => rfl
  | cons c cs ih =>
    by_cases h : (c._tag == t) = true
    · simp [lruFindGo, h, ih]
    · simp [lruFindGo, h, ih]

/-- The `LRU::Find` scan preserves every slot's tag value. -/
theorem lruFindGo_tagval (t : Nat) (l : List CACHE_TAG) (j : Nat) :
    ((lruFindGo t l).2.get? j).map CACHE_TAG._tag = (l.get? j).map CACHE_TAG._tag := by
  rw [lruFindGo_get?]
  cases l.get? j with
  | none => rfl
  | some c =>
    simp only [Option.map_some']
    split <;> rfl

/-- The result flag of the `LRU::Find` scan, phrased through `get?`. -/
theorem lruFindGo_fst_get? (t : Nat) (l : List CACHE_TAG) :
    (lruFindGo t l).1 = true ↔ ∃ j, (l.get? j).map CACHE_TAG._tag = some t := by
  rw [lruFindGo_fst]
  constructor
  · rintro ⟨c, hc, rfl⟩
    obtain ⟨j, hj⟩ := List.mem_iff_get?.1 hc
    exact ⟨j, by rw [hj]; rfl⟩
  · rintro ⟨j, hj⟩
    cases hcj : l.get? j with
    | none => rw [hcj] at hj; cases hj
    | some c =>
      rw [hcj] at hj
      refine ⟨c, List.get?_mem hcj, by simpa using hj⟩

/-- The result of the `LRU::Find` scan depends only on the slots' tag values. -/
theorem lruFindGo_fst_congr (t : Nat) (l l' : List CACHE_TAG)
    (h : ∀ j, (l.get? j).map CACHE_TAG._tag = (l'.get? j).map CACHE_TAG._tag) :
    (lruFindGo t l).1 = (lruFindGo t l').1 := by
  have hiff : (lruFindGo t l).1 = true ↔ (lruFindGo t l').1 = true := by
    rw [lruFindGo_fst_get?, lruFindGo_fst_get?]
    constructor
    · rintro ⟨j, hj⟩; exact ⟨j, by rw [← h j]; exact hj⟩
    · rintro ⟨j, hj⟩; exact ⟨j, by rw [h j]; exact hj⟩
  cases hl : (lruFindGo t l).1 <;> cases hl' : (lruFindGo t l').1 <;> simp_all

/-- A `getD` at an in-range index reads an element of the list. -/
theorem getD_mem_of_lt (l : List CACHE_TAG) (j : Nat) (h : j < l.length) :
    l.getD j (CACHE_TAG.init 0) ∈ l := by
  rw [List.getD_eq_getElem _ _ h]
  exact List.getElem_mem _

/-- Invariant of the `LRU::Replace` victim scan: running the loop over
indices `k-1, ..., 0` from a candidate `acc` that already dominates the
indices `≥ k`, the final candidate is in range, its recorded recency is a
lower bound on its slot's recency, it dominates every slot, and it strictly
dominates every higher-indexed slot. -/
theorem lruScanAux_spec (tags : List CACHE_TAG) :
    ∀ (k : Nat) (acc : Nat × Int),
      k ≤ tags.length →
      acc.1 < tags.length →
      k ≤ acc.1 + 1 →
      acc.2 ≤ (tags.getD acc.1 (CACHE_TAG.init 0)).LRU →
      (∀ j, k ≤ j → j < tags.length →
        (tags.getD j (CACHE_TAG.init 0)).LRU ≤ acc.2) →
      (∀ j, k ≤ j → j < tags.length → acc.1 < j →
        (tags.getD j (CACHE_TAG.init 0)).LRU < acc.2) →
      (lruScanAux tags k acc).1 < tags.length
      ∧ (lruScanAux tags k acc).2
          ≤ (tags.getD (lruScanAux tags k acc).1 (CACHE_TAG.init 0)).LRU
      ∧ (∀ j, j < tags.length →
          (tags.getD j (CACHE_TAG.init 0)).LRU ≤ (lruScanAux tags k acc).2)
      ∧ (∀ j, j < tags.length → (lruScanAux tags k acc).1 < j →
          (tags.getD j (CACHE_TAG.init 0)).LRU < (lruScanAux tags k acc).2) := by
  intro k
  induction k with
  | zero =>
    intro acc _ h1 _ h3 h4 h5
    exact ⟨h1, h3, fun j hj => h4 j (Nat.zero_le j) hj,
      fun j hj hlt => h5 j (Nat.zero_le j) hj hlt⟩
  | succ k ih =>
    intro acc hk h1 h2 h3 h4 h5
    simp only [lruScanAux]
    by_cases hcmp : acc.2 < (tags.getD k (CACHE_TAG.init 0)).LRU
    · rw [if_pos hcmp]
      refine ih (k, (tags.getD k (CACHE_TAG.init 0)).LRU)
        (Nat.le_of_succ_le hk) (Nat.lt_of_succ_le hk) (Nat.le_succ k)
        (le_refl _) ?_ ?_
      · intro j hj hjlen
        rcases Nat.eq_or_lt_of_le hj with rfl | hlt
        · exact le_refl _
        · exact le_of_lt (lt_of_le_of_lt (h4 j hlt hjlen) hcmp)
      · intro j _ hjlen hgt
        exact lt_of_le_of_lt (h4 j hgt hjlen) hcmp
    · rw [if_neg hcmp]
      refine ih acc (Nat.le_of_succ_le hk) h1 (Nat.le_of_succ_le h2) h3 ?_ ?_
      · intro j hj hjlen
        rcases Nat.eq_or_lt_of_le hj with rfl | hlt
        · exact le_of_not_lt hcmp
        · exact h4 j hlt hjlen
      · intro j hj hjlen hgt
        rcases Nat.eq_or_lt_of_le hj with rfl | hlt
        · exact absurd hgt (Nat.not_lt.mpr (Nat.le_of_succ_le_succ h2))
        · exact h5 j hlt hjlen hgt

/-- The hit result of `AccessSingleLine`, unfolded. -/
theorem accessSingleLine_fst (st : CACHE_STATE) (addr : Nat) (ty : ACCESS_TYPE) :
    (AccessSingleLine st addr ty).1
      = (LRU.Find (st.sets.getD (SplitAddress st.geom addr 1).2 ⟨[]⟩)
          (SplitAddress st.geom addr 1).1).1 := rfl

/-- The set array after `AccessSingleLine`, unfolded. -/
theorem accessSingleLine_sets (st : CACHE_STATE) (addr : Nat) (ty : ACCESS_TYPE) :
    (AccessSingleLine st addr ty).2.sets
      = st.sets.set (SplitAddress st.geom addr 1).2
          (if !(AccessSingleLine st addr ty).1
              && (ty == ACCESS_TYPE.ACCESS_TYPE_LOAD
                || st.storeAllocation == STORE_ALLOCATION.STORE_ALLOCATE)
            then LRU.Replace
                (LRU.Find (st.sets.getD (SplitAddress st.geom addr 1).2 ⟨[]⟩)
                  (SplitAddress st.geom addr 1).1).2
                (SplitAddress st.geom addr 1).1
            else (LRU.Find (st.sets.getD (SplitAddress st.geom addr 1).2 ⟨[]⟩)
                (SplitAddress st.geom addr 1).1).2) := rfl

/-- `AccessSingleLine` never touches the geometry. -/
theorem accessSingleLine_geom (st : CACHE_STATE) (addr : Nat) (ty : ACCESS_TYPE) :
    (AccessSingleLine st addr ty).2.geom = st.geom := rfl

/-- `getD` after `set` at the same in-range index. -/
theorem getD_set_self (l : List LRU) (n : Nat) (a : LRU) (h : n < l.length) :
    (l.set n a).getD n ⟨[]⟩ = a := by
  rw [List.getD_eq_getD_get?, List.get?_set_eq, List.get?_eq_get h]
  rfl

/-- `getD` after `set` at a different index. -/
theorem getD_set_ne (l : List LRU) (m n : Nat) (a : LRU) (h : m ≠ n) :
    (l.set m a).getD n ⟨[]⟩ = l.getD n ⟨[]⟩ := by
  rw [List.getD_eq_getD_get?, List.get?_set_ne a l h, ← List.getD_eq_getD_get?]

/-- `getD` past the end of the list. -/
theorem getD_out (l : List LRU) (n : Nat) (h : l.length ≤ n) :
    l.getD n ⟨[]⟩ = ⟨[]⟩ :=
  List.getD_eq_default _ _ h

/-- `getD` into a replicated list. -/
theorem getD_replicate (n i : Nat) (a : LRU) (h : i < n) :
    (List.replicate n a).getD i ⟨[]⟩ = a := by
  rw [List.getD_eq_getElem _ _ (by simpa using h)]
  simp

/-- Probing a set right after a `Find` gives the same hit answer as probing
the original set: `Find` changes recencies, never tag values. -/
theorem find_after_find (t t2 : Nat) (s : LRU) :
    (LRU.Find (LRU.Find s t).2 t2).1 = (LRU.Find s t2).1 :=
  lruFindGo_fst_congr t2 (LRU.Find s t).2.tags s.tags
    (fun j => lruFindGo_tagval t s.tags j)

/-- A fresh set holds default tags with value 0, so probing tag 0 hits. -/
theorem find_fresh_zero (assoc : Nat) (h : 0 < assoc) :
    (LRU.Find (freshLRU assoc) 0).1 = true :=
  (lruFindGo_fst 0 (freshLRU assoc).tags).mpr
    ⟨CACHE_TAG.init 0, List.mem_replicate.mpr ⟨Nat.pos_iff_ne_zero.mp h, rfl⟩, rfl⟩

/-- Effect of `_access[accessType][hit]++` on each counter cell. -/
theorem AccessCounters.get_inc (a : AccessCounters) (ty : ACCESS_TYPE) (hb : Bool)
    (ty2 : ACCESS_TYPE) (h2 : Bool) :
    (a.inc ty hb).get ty2 h2
      = a.get ty2 h2 + (if ty2 = ty ∧ h2 = hb then 1 else 0) := by
  cases ty <;> cases hb <;> cases ty2 <;> cases h2 <;>
    simp [AccessCounters.inc, AccessCounters.get]

/-- `AccessSingleLine` bumps `Accesses(t)` by one exactly when the access has
type `t`. -/
theorem accesses_step (st : CACHE_STATE) (addr : Nat) (ty t : ACCESS_TYPE) :
    Accesses (AccessSingleLine st addr ty).2 t
      = Accesses st t + (if ty = t then 1 else 0) := by
  have hacc : ((AccessSingleLine st addr ty).2).access
      = st.access.inc ty ((AccessSingleLine st addr ty).1) := rfl
  unfold Accesses Hits Misses
  rw [hacc, AccessCounters.get_inc, AccessCounters.get_inc]
  cases hb : (AccessSingleLine st addr ty).1 <;> cases ty <;> cases t <;>
    simp <;> omega

/-- Per-type access counts over a whole sequence of single-line accesses. -/
theorem runAccesses_accesses :
    ∀ (l : List (Nat × ACCESS_TYPE)) (st : CACHE_STATE) (t : ACCESS_TYPE),
      Accesses (runAccesses st l) t
        = Accesses st t + l.countP (fun p => p.2 == t) := by
  intro l
  induction l with
  | nil => intro st t; simp [runAccesses]
  | cons p rest ih =>
    intro st t
    rw [runAccesses, ih, accesses_step, List.countP_cons]
    by_cases hc : p.2 = t
    · simp [hc]
      omega
    · simp [hc]

end DCache

namespace DCache

/-! ## Claim theorems -/

/-- C2: for every starting state, address, size and access type, the
multi-line `Access` entry point returns `true` and leaves the whole cache
state (every counter and every set) unchanged: its per-line call and its
counter update are commented out in the source. -/
theorem access_always_true_and_frame (st : CACHE_STATE) (addr size : Nat)
    (ty : ACCESS_TYPE) :
    Access st addr size ty = (true, st) := by
  unfold Access
  rw [accessLoop_true]

/-- C1 (code evaluated at the failing input): on an 8-byte, 2-byte-line,
2-way store-allocate cache primed by a load of address 4, the three lines
touched by `Access(0, 6, load)` hit, miss and hit respectively (as the
single-line path shows), yet `Access` returns `true` and leaves the state —
counters included — completely unchanged, instead of returning `false` and
bumping the miss counter by 1 and the hit counter by 2 as the specification
demands. -/
theorem access_multiline_disabled_counts_nothing :
    (AccessSingleLine ((AccessSingleLine (mkCache 8 2 2 8 2 2
        STORE_ALLOCATION.STORE_ALLOCATE) 4 ACCESS_TYPE.ACCESS_TYPE_LOAD).2)
      0 ACCESS_TYPE.ACCESS_TYPE_LOAD).1 = true
    ∧ (AccessSingleLine ((AccessSingleLine (mkCache 8 2 2 8 2 2
        STORE_ALLOCATION.STORE_ALLOCATE) 4 ACCESS_TYPE.ACCESS_TYPE_LOAD).2)
      2 ACCESS_TYPE.ACCESS_TYPE_LOAD).1 = false
    ∧ (AccessSingleLine ((AccessSingleLine (mkCache 8 2 2 8 2 2
        STORE_ALLOCATION.STORE_ALLOCATE) 4 ACCESS_TYPE.ACCESS_TYPE_LOAD).2)
      4 ACCESS_TYPE.ACCESS_TYPE_LOAD).1 = true
    ∧ Access ((AccessSingleLine (mkCache 8 2 2 8 2 2
        STORE_ALLOCATION.STORE_ALLOCATE) 4 ACCESS_TYPE.ACCESS_TYPE_LOAD).2)
      0 6 ACCESS_TYPE.ACCESS_TYPE_LOAD
      = (true, (AccessSingleLine (mkCache 8 2 2 8 2 2
          STORE_ALLOCATION.STORE_ALLOCATE) 4 ACCESS_TYPE.ACCESS_TYPE_LOAD).2) := by
  refine ⟨by decide, by decide, by decide, by decide⟩

/-- C3 (code evaluated at the failing input): after one load access
(`N = 1`, `M = 0`) on a fresh 8-byte, 2-byte-line, 2-way cache, the per-type
count `Accesses(load)` is `1`, but the aggregate `Accesses()` is `0`, not
`N + M = 1`: `SumAccess`'s summation loop is commented out and returns `0`,
so the aggregate accessors `Hits()`, `Misses()`, `Accesses()` are constantly
zero. -/
theorem aggregate_accessors_return_zero :
    Accesses ((AccessSingleLine (mkCache 8 2 2 8 2 2
        STORE_ALLOCATION.STORE_ALLOCATE) 0 ACCESS_TYPE.ACCESS_TYPE_LOAD).2)
      ACCESS_TYPE.ACCESS_TYPE_LOAD = 1
    ∧ AccessesAll ((AccessSingleLine (mkCache 8 2 2 8 2 2
        STORE_ALLOCATION.STORE_ALLOCATE) 0 ACCESS_TYPE.ACCESS_TYPE_LOAD).2) = 0
    ∧ AccessesAll ((AccessSingleLine (mkCache 8 2 2 8 2 2
        STORE_ALLOCATION.STORE_ALLOCATE) 0 ACCESS_TYPE.ACCESS_TYPE_LOAD).2) ≠ 1 := by
  refine ⟨by decide, rfl, by decide⟩

/-- C5: `LRU::Find` scans all active slots without short-circuiting: it
returns `true` iff some active slot's tag matches the probe, keeps the slot
count, and — on hits and misses alike — resets a matching slot's recency to
`0` while incrementing every other active slot's recency by `1`. -/
theorem lru_find_full_scan_spec (s : LRU) (t : Nat) :
    ((LRU.Find s t).1 = true ↔ ∃ c ∈ s.tags, c._tag = t)
    ∧ (LRU.Find s t).2.tags.length = s.tags.length
    ∧ ∀ j : Nat,
        (LRU.Find s t).2.tags.get? j
          = (s.tags.get? j).map (fun c =>
              if c._tag == t then { c with LRU := 0 }
              else { c with LRU := c.LRU + 1 }) :=
  ⟨lruFindGo_fst t s.tags, lruFindGo_length t s.tags, lruFindGo_get? t s.tags⟩

/-- C7: every `AccessSingleLine` call increments exactly the
`(accessType, hit)` statistics cell by `1` and changes no other counter
(the second-level counters included); consequently, over any sequence of
single-line accesses, `Hits(t) + Misses(t)` grows by exactly the number of
accesses of type `t`. -/
theorem access_single_line_counter_discipline (st : CACHE_STATE) (addr : Nat)
    (ty : ACCESS_TYPE) :
    (∀ (ty2 : ACCESS_TYPE) (h2 : Bool),
        ((AccessSingleLine st addr ty).2).access.get ty2 h2
          = st.access.get ty2 h2
            + (if ty2 = ty ∧ h2 = (AccessSingleLine st addr ty).1 then 1 else 0))
    ∧ ((AccessSingleLine st addr ty).2).l2_access = st.l2_access
    ∧ ((AccessSingleLine st addr ty).2).l2_sets = st.l2_sets
    ∧ ∀ (l : List (Nat × ACCESS_TYPE)),
        Accesses (runAccesses st l) ty
          = Accesses st ty + l.countP (fun p => p.2 == ty) := by
  refine ⟨?_, rfl, rfl, fun l => runAccesses_accesses l st ty⟩
  intro ty2 h2
  have hacc : ((AccessSingleLine st addr ty).2).access
      = st.access.inc ty ((AccessSingleLine st addr ty).1) := rfl
  rw [hacc, AccessCounters.get_inc]

/-- C8: `SplitAddress` computes `tag = addr >> lineShift` and masks the set
index out of the already-shifted address, `setIndex = tag & setIndexMask`;
for the 32KB / 64B-line / 4-way geometry the derived set count is 128,
`lineShift` is 6, and address `0x1000` splits into tag `0x40`, set index 64. -/
theorem split_address_shifted_then_masked :
    (∀ (g : CACHE_GEOM) (addr : Nat),
        SplitAddress g addr 1
          = (addr >>> g.lineShift, (addr >>> g.lineShift) &&& g.setIndexMask))
    ∧ NumSets (mkGeom 32768 64 4 4 4 1) = 128
    ∧ (mkGeom 32768 64 4 4 4 1).lineShift = 6
    ∧ SplitAddress (mkGeom 32768 64 4 4 4 1) 4096 1 = (64, 64) := by
  refine ⟨fun g addr => rfl, by decide, by decide, by decide⟩

/-- C4 counterexample: on a freshly constructed 2-way set fed the three
distinct tags 5, 6, 7 through the miss path (`Find` then `Replace`), the
third tag is installed in slot 1 — the *last* slot — while slot 0 holds the
second tag; the claim's prediction that the `k+1`-th distinct tag evicts
slot 0 (ties broken by lowest index) is false.  (Trace: the first `Replace`
sees all recencies equal to 1 and keeps its initial candidate, the last
slot.) -/
theorem lru_cold_start_does_not_evict_slot_zero :
    (LRU.Replace (LRU.Find (LRU.Replace (LRU.Find (LRU.Replace
          (LRU.Find (freshLRU 2) 5).2 5) 6).2 6) 7).2 7).tags
      = [⟨6, false, 1⟩, ⟨7, false, 0⟩]
    ∧ ((LRU.Replace (LRU.Find (LRU.Replace (LRU.Find (LRU.Replace
          (LRU.Find (freshLRU 2) 5).2 5) 6).2 6) 7).2 7).tags.get? 0).map
        CACHE_TAG._tag ≠ some 7 := by
  refine ⟨by decide, by decide⟩

/-- C4 (amended): `LRU::Replace` installs the tag, with recency reset to 0,
into the slot selected by the descending scan; under the reachable invariant
that recencies are nonnegative, that slot holds a maximal recency and is the
*highest*-indexed slot attaining it (the descending scan overwrites its
candidate only on strictly greater recency, starting from the last slot); in
particular when all recencies are equal the last slot (index `k-1`) is
chosen, so a freshly constructed set of associativity `k` evicts slot `k-1`
first. -/
theorem lru_replace_selects_max_recency_highest_index
    (s : List CACHE_TAG) (t : Nat)
    (hne : s ≠ []) (hnn : ∀ c ∈ s, 0 ≤ c.LRU) :
    lruScanIdx s < s.length
    ∧ (∀ j, j < s.length →
        (s.getD j (CACHE_TAG.init 0)).LRU
          ≤ (s.getD (lruScanIdx s) (CACHE_TAG.init 0)).LRU)
    ∧ (∀ j, j < s.length → lruScanIdx s < j →
        (s.getD j (CACHE_TAG.init 0)).LRU
          < (s.getD (lruScanIdx s) (CACHE_TAG.init 0)).LRU)
    ∧ ((∀ c ∈ s, c.LRU = (s.getD 0 (CACHE_TAG.init 0)).LRU) →
        lruScanIdx s = s.length - 1)
    ∧ LRU.Replace ⟨s⟩ t = ⟨s.set (lruScanIdx s) (CACHE_TAG.init t)⟩ := by
  have hlen : 0 < s.length := List.length_pos.mpr hne
  have h3 : (0 : Int) ≤ (s.getD (s.length - 1) (CACHE_TAG.init 0)).LRU :=
    hnn _ (getD_mem_of_lt s (s.length - 1) (by omega))
  have main := lruScanAux_spec s s.length (s.length - 1, 0) (le_refl _)
    (by omega) (by omega) h3
    (fun j hj hjlen => absurd hjlen (by omega))
    (fun j hj hjlen _ => absurd hjlen (by omega))
  obtain ⟨m1', m2', m3', m4'⟩ := main
  have m1 : lruScanIdx s < s.length := m1'
  have m2 : (lruScanAux s s.length (s.length - 1, 0)).2
      ≤ (s.getD (lruScanIdx s) (CACHE_TAG.init 0)).LRU := m2'
  have m3 : ∀ j, j < s.length →
      (s.getD j (CACHE_TAG.init 0)).LRU
        ≤ (lruScanAux s s.length (s.length - 1, 0)).2 := m3'
  have m4 : ∀ j, j < s.length → lruScanIdx s < j →
      (s.getD j (CACHE_TAG.init 0)).LRU
        < (lruScanAux s s.length (s.length - 1, 0)).2 := m4'
  refine ⟨m1, fun j hj => le_trans (m3 j hj) m2,
    fun j hj hgt => lt_of_lt_of_le (m4 j hj hgt) m2, ?_, rfl⟩
  intro hall
  by_contra hne2
  have hlt : lruScanIdx s < s.length - 1 := by omega
  have hstrict := lt_of_lt_of_le (m4 (s.length - 1) (by omega) hlt) m2
  have e1 : (s.getD (s.length - 1) (CACHE_TAG.init 0)).LRU
      = (s.getD 0 (CACHE_TAG.init 0)).LRU :=
    hall _ (getD_mem_of_lt s (s.length - 1) (by omega))
  have e2 : (s.getD (lruScanIdx s) (CACHE_TAG.init 0)).LRU
      = (s.getD 0 (CACHE_TAG.init 0)).LRU :=
    hall _ (getD_mem_of_lt s (lruScanIdx s) m1)
  rw [e1, e2] at hstrict
  exact absurd hstrict (lt_irrefl _)

/-- Closed witness for the amended C4 theorem: on the concrete slot array
`[(10, 2), (11, 5), (12, 5), (13, 1)]` (tag, recency) the scan picks index 2,
the highest-indexed slot holding the maximal recency 5. -/
theorem lru_replace_selects_max_recency_highest_index_witness :
    lruScanIdx [⟨10, false, 2⟩, ⟨11, false, 5⟩, ⟨12, false, 5⟩, ⟨13, false, 1⟩]
        < ([⟨10, false, 2⟩, ⟨11, false, 5⟩, ⟨12, false, 5⟩,
            ⟨13, false, 1⟩] : List CACHE_TAG).length
    ∧ (∀ j, j < ([⟨10, false, 2⟩, ⟨11, false, 5⟩, ⟨12, false, 5⟩,
            ⟨13, false, 1⟩] : List CACHE_TAG).length →
        (([⟨10, false, 2⟩, ⟨11, false, 5⟩, ⟨12, false, 5⟩,
            ⟨13, false, 1⟩] : List CACHE_TAG).getD j (CACHE_TAG.init 0)).LRU
          ≤ (([⟨10, false, 2⟩, ⟨11, false, 5⟩, ⟨12, false, 5⟩,
              ⟨13, false, 1⟩] : List CACHE_TAG).getD
              (lruScanIdx [⟨10, false, 2⟩, ⟨11, false, 5⟩, ⟨12, false, 5⟩,
                ⟨13, false, 1⟩]) (CACHE_TAG.init 0)).LRU)
    ∧ (∀ j, j < ([⟨10, false, 2⟩, ⟨11, false, 5⟩, ⟨12, false, 5⟩,
            ⟨13, false, 1⟩] : List CACHE_TAG).length →
        lruScanIdx [⟨10, false, 2⟩, ⟨11, false, 5⟩, ⟨12, false, 5⟩,
            ⟨13, false, 1⟩] < j →
        (([⟨10, false, 2⟩, ⟨11, false, 5⟩, ⟨12, false, 5⟩,
            ⟨13, false, 1⟩] : List CACHE_TAG).getD j (CACHE_TAG.init 0)).LRU
          < (([⟨10, false, 2⟩, ⟨11, false, 5⟩, ⟨12, false, 5⟩,
              ⟨13, false, 1⟩] : List CACHE_TAG).getD
              (lruScanIdx [⟨10, false, 2⟩, ⟨11, false, 5⟩, ⟨12, false, 5⟩,
                ⟨13, false, 1⟩]) (CACHE_TAG.init 0)).LRU)
    ∧ ((∀ c ∈ ([⟨10, false, 2⟩, ⟨11, false, 5⟩, ⟨12, false, 5⟩,
            ⟨13, false, 1⟩] : List CACHE_TAG),
        c.LRU = (([⟨10, false, 2⟩, ⟨11, false, 5⟩, ⟨12, false, 5⟩,
            ⟨13, false, 1⟩] : List CACHE_TAG).getD 0 (CACHE_TAG.init 0)).LRU) →
        lruScanIdx [⟨10, false, 2⟩, ⟨11, false, 5⟩, ⟨12, false, 5⟩, ⟨13, false, 1⟩]
          = ([⟨10, false, 2⟩, ⟨11, false, 5⟩, ⟨12, false, 5⟩,
              ⟨13, false, 1⟩] : List CACHE_TAG).length - 1)
    ∧ LRU.Replace ⟨[⟨10, false, 2⟩, ⟨11, false, 5⟩, ⟨12, false, 5⟩,
          ⟨13, false, 1⟩]⟩ 99
        = ⟨([⟨10, false, 2⟩, ⟨11, false, 5⟩, ⟨12, false, 5⟩,
            ⟨13, false, 1⟩] : List CACHE_TAG).set
            (lruScanIdx [⟨10, false, 2⟩, ⟨11, false, 5⟩, ⟨12, false, 5⟩,
              ⟨13, false, 1⟩]) (CACHE_TAG.init 99)⟩ :=
  lru_replace_selects_max_recency_highest_index
    [⟨10, false, 2⟩, ⟨11, false, 5⟩, ⟨12, false, 5⟩, ⟨13, false, 1⟩] 99
    (by decide) (by decide)

/-- C6: under `STORE_NO_ALLOCATE`, a single-line store access that misses
installs nothing: every set keeps exactly the tag values it had (only
recencies move), and a subsequent load of the same address still misses. -/
theorem store_no_allocate_preserves_occupancy (st : CACHE_STATE) (addr : Nat)
    (hpol : st.storeAllocation = STORE_ALLOCATION.STORE_NO_ALLOCATE)
    (hmiss : (AccessSingleLine st addr ACCESS_TYPE.ACCESS_TYPE_STORE).1 = false) :
    (∀ i j,
      ((((AccessSingleLine st addr ACCESS_TYPE.ACCESS_TYPE_STORE).2).sets.getD i
          ⟨[]⟩).tags.get? j).map CACHE_TAG._tag
        = ((st.sets.getD i ⟨[]⟩).tags.get? j).map CACHE_TAG._tag)
    ∧ (AccessSingleLine ((AccessSingleLine st addr
          ACCESS_TYPE.ACCESS_TYPE_STORE).2) addr ACCESS_TYPE.ACCESS_TYPE_LOAD).1
        = false := by
  have hsets : (AccessSingleLine st addr ACCESS_TYPE.ACCESS_TYPE_STORE).2.sets
      = st.sets.set (SplitAddress st.geom addr 1).2
          (LRU.Find (st.sets.getD (SplitAddress st.geom addr 1).2 ⟨[]⟩)
            (SplitAddress st.geom addr 1).1).2 := by
    rw [accessSingleLine_sets, hmiss, hpol]
    rfl
  refine ⟨?_, ?_⟩
  · intro i j
    rw [hsets]
    by_cases hi : (SplitAddress st.geom addr 1).2 = i
    · subst hi
      by_cases hr : (SplitAddress st.geom addr 1).2 < st.sets.length
      · rw [getD_set_self _ _ _ hr]
        exact lruFindGo_tagval _ _ j
      · rw [getD_out _ _ (by rw [List.length_set]; exact Nat.le_of_not_lt hr),
          getD_out _ _ (Nat.le_of_not_lt hr)]
    · rw [getD_set_ne _ _ _ _ hi]
  · rw [accessSingleLine_fst, accessSingleLine_geom, hsets]
    by_cases hr : (SplitAddress st.geom addr 1).2 < st.sets.length
    · rw [getD_set_self _ _ _ hr, find_after_find]
      rw [← accessSingleLine_fst st addr ACCESS_TYPE.ACCESS_TYPE_STORE]
      exact hmiss
    · rw [getD_out _ _ (by rw [List.length_set]; exact Nat.le_of_not_lt hr)]
      rfl

/-- Closed witness for C6: on a fresh 8-byte, 2-byte-line, 2-way
no-allocate cache, a store to address 2 misses, leaves all tag values in
place, and the following load of address 2 still misses. -/
theorem store_no_allocate_preserves_occupancy_witness :
    (∀ i j,
      ((((AccessSingleLine (mkCache 8 2 2 8 2 2 STORE_ALLOCATION.STORE_NO_ALLOCATE)
            2 ACCESS_TYPE.ACCESS_TYPE_STORE).2).sets.getD i
          ⟨[]⟩).tags.get? j).map CACHE_TAG._tag
        = (((mkCache 8 2 2 8 2 2 STORE_ALLOCATION.STORE_NO_ALLOCATE).sets.getD i
            ⟨[]⟩).tags.get? j).map CACHE_TAG._tag)
    ∧ (AccessSingleLine ((AccessSingleLine (mkCache 8 2 2 8 2 2
          STORE_ALLOCATION.STORE_NO_ALLOCATE) 2 ACCESS_TYPE.ACCESS_TYPE_STORE).2)
        2 ACCESS_TYPE.ACCESS_TYPE_LOAD).1 = false :=
  store_no_allocate_preserves_occupancy
    (mkCache 8 2 2 8 2 2 STORE_ALLOCATION.STORE_NO_ALLOCATE) 2 rfl (by decide)

/-- C9 counterexample: the geometry `cacheSize = 100`, `lineSize = 4`,
`associativity = 3` passes both constructor assertions (`IsPower2(4)` and
`IsPower2(8)`), i.e. construction succeeds, yet
`setCount * associativity * lineSize = 8 * 3 * 4 = 96 ≠ 100`. -/
theorem geometry_invariant_fails_non_divisible :
    ctorOk (mkGeom 100 4 3 4 4 1) = true
    ∧ NumSets (mkGeom 100 4 3 4 4 1) = 8
    ∧ NumSets (mkGeom 100 4 3 4 4 1) * 3 * 4 ≠ 100 := by
  refine ⟨by decide, by decide, by decide⟩

/-- C9 (amended): for every geometry that passes the constructor assertions
*and* whose `associativity * lineSize` divides `cacheSize` (with
`cacheSize > 0`, `cacheSize` a `UINT32` value), the derived set count equals
`setIndexMask + 1` and satisfies
`setCount * associativity * lineSize = cacheSize`. -/
theorem geometry_invariant_divisible
    (cacheSize lineSize associativity l2c l2l l2a : Nat)
    (hsize : cacheSize < 2 ^ 32)
    (hok : ctorOk (mkGeom cacheSize lineSize associativity l2c l2l l2a) = true)
    (hdvd : associativity * lineSize ∣ cacheSize)
    (hpos : 0 < cacheSize) :
    NumSets (mkGeom cacheSize lineSize associativity l2c l2l l2a)
        = (mkGeom cacheSize lineSize associativity l2c l2l l2a).setIndexMask + 1
    ∧ NumSets (mkGeom cacheSize lineSize associativity l2c l2l l2a)
        * associativity * lineSize = cacheSize := by
  have hqmul : cacheSize / (associativity * lineSize) * (associativity * lineSize)
      = cacheSize := Nat.div_mul_cancel hdvd
  have hq1 : 1 ≤ cacheSize / (associativity * lineSize) := by
    rcases Nat.eq_zero_or_pos (cacheSize / (associativity * lineSize)) with h0 | h
    · rw [h0, Nat.zero_mul] at hqmul
      omega
    · exact h
  have hqlt : cacheSize / (associativity * lineSize) < 2 ^ 32 :=
    lt_of_le_of_lt (Nat.div_le_self _ _) hsize
  have key : ∀ q : Nat, 1 ≤ q → q < 2 ^ 32 →
      u32sub1 q = q - 1 ∧ (u32sub1 q + 1) % 2 ^ 32 = q := by
    intro q h1 h2
    unfold u32sub1
    exact ⟨by omega, by omega⟩
  obtain ⟨k1, k2⟩ := key (cacheSize / (associativity * lineSize)) hq1 hqlt
  have hmask : (mkGeom cacheSize lineSize associativity l2c l2l l2a).setIndexMask
      = cacheSize / (associativity * lineSize) - 1 := k1
  have hns : NumSets (mkGeom cacheSize lineSize associativity l2c l2l l2a)
      = cacheSize / (associativity * lineSize) := k2
  refine ⟨?_, ?_⟩
  · rw [hns, hmask]
    exact (Nat.succ_pred_eq_of_pos hq1).symm
  · rw [hns, Nat.mul_assoc]
    exact hqmul

/-- Closed witness for the amended C9 theorem at the divisible geometry
`8 / 2-byte lines / 2-way`: 2 sets, and `2 * 2 * 2 = 8`. -/
theorem geometry_invariant_divisible_witness :
    (8 : Nat) < 2 ^ 32
    ∧ ctorOk (mkGeom 8 2 2 8 2 2) = true
    ∧ (2 * 2 ∣ 8)
    ∧ (NumSets (mkGeom 8 2 2 8 2 2) = (mkGeom 8 2 2 8 2 2).setIndexMask + 1
      ∧ NumSets (mkGeom 8 2 2 8 2 2) * 2 * 2 = 8) :=
  ⟨by decide, by decide, by decide,
    geometry_invariant_divisible 8 2 2 8 2 2 (by decide) (by decide)
      (by decide) (by decide)⟩

/-- C10: on a freshly constructed cache — any state whose sets are all in
the constructor's initial configuration, every slot a default tag — an
access to any address whose tag is 0 (the line-shifted address is 0, e.g.
address 0) spuriously hits: default-constructed slots hold tag value 0 and
0 is not reserved as an empty marker.  The access leaves the tag values in
place (a hit never calls `Replace`), so an immediately repeated access to
the same address hits again. -/
theorem fresh_cache_address_zero_spurious_hit
    (st : CACHE_STATE) (n : Nat) (addr : Nat) (ty : ACCESS_TYPE)
    (hassoc : 0 < st.geom.associativity)
    (hfresh : st.sets = List.replicate n (freshLRU st.geom.associativity))
    (hn : 0 < n)
    (htag : addr >>> st.geom.lineShift = 0) :
    (AccessSingleLine st addr ty).1 = true
    ∧ (AccessSingleLine ((AccessSingleLine st addr ty).2) addr ty).1 = true := by
  have e1 : (SplitAddress st.geom addr 1).1 = addr >>> st.geom.lineShift := rfl
  have e2 : (SplitAddress st.geom addr 1).2
      = (addr >>> st.geom.lineShift) &&& st.geom.setIndexMask := rfl
  have h1 : (AccessSingleLine st addr ty).1 = true := by
    rw [accessSingleLine_fst, e1, e2, htag, Nat.zero_and, hfresh,
      getD_replicate _ _ _ hn]
    exact find_fresh_zero _ hassoc
  refine ⟨h1, ?_⟩
  rw [accessSingleLine_fst, accessSingleLine_geom, e1, e2, htag, Nat.zero_and,
    accessSingleLine_sets, h1]
  simp only [Bool.not_true, Bool.false_and, Bool.false_eq_true, if_false]
  rw [e2, htag, Nat.zero_and, hfresh,
    getD_set_self _ _ _ (by rw [List.length_replicate]; exact hn),
    getD_replicate _ _ _ hn, find_after_find]
  exact find_fresh_zero _ hassoc

/-- Closed witness for C10: the very first load of address 0 on a freshly
constructed 8-byte, 2-byte-line, 2-way cache hits, and so does the second. -/
theorem fresh_cache_address_zero_spurious_hit_witness :
    (AccessSingleLine (mkCache 8 2 2 8 2 2 STORE_ALLOCATION.STORE_ALLOCATE) 0
        ACCESS_TYPE.ACCESS_TYPE_LOAD).1 = true
    ∧ (AccessSingleLine ((AccessSingleLine (mkCache 8 2 2 8 2 2
          STORE_ALLOCATION.STORE_ALLOCATE) 0 ACCESS_TYPE.ACCESS_TYPE_LOAD).2) 0
        ACCESS_TYPE.ACCESS_TYPE_LOAD).1 = true :=
  fresh_cache_address_zero_spurious_hit
    (mkCache 8 2 2 8 2 2 STORE_ALLOCATION.STORE_ALLOCATE) 2 0
    ACCESS_TYPE.ACCESS_TYPE_LOAD
    (by decide) (by decide) (by decide) (by decide)

end DCache
